import Mathlib

/-!
Verification development for the wealth-projection engine
(`models.py` / `logic.py` of the wealth_app repository).

Monetary quantities are embedded as exact rationals (`ℚ`): every arithmetic
operation of the source (add, subtract, multiply, divide, compare, `max`,
`min`, compounding powers) is mirrored symbolically, in the order the source
performs it.  Mutation of dataclass fields becomes functional record update;
fuel-free structural recursion replaces the bounded source loops (the 12-month
amortization loop and the fixed-horizon year loop, both of which have static
bounds in the source).

The per-year output dictionary built by `run_simulation` is modelled as a
`Row` structure: its fixed columns (`Year`, `Age`, `Net Worth`,
`Passive Income`, `Annual Spending`) become named fields and the dynamic
per-entity columns become association lists in insertion order.  The source's
`row.get(item.name, 0)` dictionary access is modelled by `rowLookup`
(last-written value wins, default 0), exact whenever entity names do not
collide with the five fixed column labels — which the data model guarantees
(`name` is a unique identifier within a run, §3 of the specification).
-/

namespace WealthApp

/-- The closed set of tax treatments, `TaxType = Literal['Roth', 'Pre-Tax',
'Taxable', 'N/A']` in `models.py`. -/
inductive TaxType where
  | roth
  | preTax
  | taxable
  | na
deriving DecidableEq, Repr

/-- The string the source stores for each tax treatment; membership tests in
`logic.py` compare these strings. -/
def TaxType.str : TaxType → String
  | .roth => "Roth"
  | .preTax => "Pre-Tax"
  | .taxable => "Taxable"
  | .na => "N/A"

/-- `Asset` dataclass of `models.py`. -/
structure Asset where
  name : String
  balance : ℚ
  annual_contribution : ℚ
  annual_growth_rate : ℚ
  tax_status : TaxType
  category : String
deriving DecidableEq, Repr

/-- `Asset.project_year`: growth is computed on the balance before the
contribution escalation, the stored contribution is escalated, then both are
added to the balance. -/
def Asset.project_year (a : Asset) (contribution_growth_rate : ℚ) : Asset :=
  let growth := a.balance * a.annual_growth_rate
  let contrib := a.annual_contribution * (1 + contribution_growth_rate)
  { a with annual_contribution := contrib, balance := a.balance + (growth + contrib) }

/-- `Asset.withdraw`: returns the updated asset and the amount actually
removed (`self.balance >= amount` keeps the full request, otherwise the whole
balance is taken and the balance is set to 0). -/
def Asset.withdraw (a : Asset) (amount : ℚ) : Asset × ℚ :=
  if amount ≤ a.balance then ({ a with balance := a.balance - amount }, amount)
  else ({ a with balance := 0 }, a.balance)

/-- `Liability` dataclass of `models.py` (`category` defaults to "Debt"). -/
structure Liability where
  name : String
  balance : ℚ
  annual_interest_rate : ℚ
  monthly_payment : ℚ
  category : String
deriving DecidableEq, Repr

/-- The monthly loop body of `Liability.pay_down_year`: up to `n` steps, each
accruing `balance * (rate/12)` interest and then subtracting the fixed monthly
payment, breaking as soon as the balance is ≤ 0. -/
def payDownMonths (rate payment : ℚ) : ℕ → ℚ → ℚ
  | 0, b => b
  | n + 1, b =>
      if b ≤ 0 then b
      else payDownMonths rate payment n (b + b * (rate / 12) - payment)

/-- `Liability.pay_down_year`: 12 monthly steps with early break, then any
negative residual is clamped to exactly 0. -/
def Liability.pay_down_year (l : Liability) : Liability :=
  let b := payDownMonths l.annual_interest_rate l.monthly_payment 12 l.balance
  { l with balance := if b < 0 then 0 else b }

/-- The Single-filer bracket table of `calculate_progressive_tax`. -/
def singleBrackets : List (ℚ × ℚ) :=
  [(0.10, 11600), (0.12, 47150), (0.22, 100525), (0.24, 191950), (0.32, 243725), (0.35, 609350)]

/-- The joint-filer bracket table of `calculate_progressive_tax`. -/
def jointBrackets : List (ℚ × ℚ) :=
  [(0.10, 23200), (0.12, 94300), (0.22, 201050), (0.24, 383900), (0.32, 487450), (0.35, 731200)]

/-- The bracket loop of `calculate_progressive_tax`: walk the table carrying
`previous_limit` and the accumulated tax; a full slice is taxed and the walk
continues while taxable income exceeds the bracket bound, otherwise the
remaining slice is taxed and the walk returns; income above every listed
bound is taxed at the fixed top rate 0.37. -/
def bracketWalk (taxable_income : ℚ) : List (ℚ × ℚ) → ℚ → ℚ → ℚ
  | [], previous_limit, tax => tax + (taxable_income - previous_limit) * 0.37
  | (rate, limit) :: rest, previous_limit, tax =>
      if limit < taxable_income then
        bracketWalk taxable_income rest limit (tax + (limit - previous_limit) * rate)
      else tax + (taxable_income - previous_limit) * rate

/-- `calculate_progressive_tax` of `logic.py`. -/
def calculate_progressive_tax (income : ℚ) (filing_status : String) : ℚ :=
  if income ≤ 0 then 0
  else
    let std_deduction : ℚ := if filing_status = "Single" then 14600 else 29200
    let taxable_income := max 0 (income - std_deduction)
    let brackets := if filing_status = "Single" then singleBrackets else jointBrackets
    bracketWalk taxable_income brackets 0 0

/-- The engine's working entity set mixes the two dataclass kinds; the
source distinguishes them with `isinstance` checks. -/
inductive Entity where
  | asset (a : Asset)
  | liability (l : Liability)
deriving DecidableEq, Repr

/-- Name of an entity (either dataclass has a `name` field). -/
def Entity.name : Entity → String
  | .asset a => a.name
  | .liability l => l.name

/-- `{name, age, cost}` life-event record. -/
structure LifeEvent where
  name : String
  age : ℤ
  cost : ℚ
deriving DecidableEq, Repr

/-- The scalar `simulation_params` of `run_simulation` after unpacking. -/
structure SimParams where
  inflation_rate : ℚ
  contrib_growth : ℚ
  swr : ℚ
  annual_spend : ℚ
  filing_status : String
  use_progressive : Bool
  tax_flat_rate : ℚ
  retirement_age : ℤ
deriving DecidableEq, Repr

/-- Membership test of the life-event allocator: inside the tier
`['Cash', 'Taxable']` an asset qualifies when its category is "Cash", and in
any tier when its tax-status string is listed
(`is_cash or is_tax_match` in the source). -/
def tierMatch (tier : List String) (a : Asset) : Bool :=
  (tier == ["Cash", "Taxable"] && a.category == "Cash") || tier.contains a.tax_status.str

/-- The inner entity loop of the allocator for one tier: each asset matching
the tier is drained with `withdraw(remaining_cost)` while the remaining cost
is still positive; liabilities are skipped. -/
def drainList (tier : List String) : List Entity → ℚ → List Entity × ℚ
  | [], r => ([], r)
  | .liability l :: rest, r =>
      let st := drainList tier rest r
      (.liability l :: st.1, st.2)
  | .asset a :: rest, r =>
      if 0 < r ∧ tierMatch tier a then
        let w := a.withdraw r
        let st := drainList tier rest (r - w.2)
        (.asset w.1 :: st.1, st.2)
      else
        let st := drainList tier rest r
        (.asset a :: st.1, st.2)

/-- The fixed tier priority order `[['Cash', 'Taxable'], ['Roth'], ['Pre-Tax']]`. -/
def tierOrder : List (List String) := [["Cash", "Taxable"], ["Roth"], ["Pre-Tax"]]

/-- One fired life event: drain the inflated cost through the three tiers in
order, threading the remaining cost. -/
def applyEventCost (es : List Entity) (cost : ℚ) : List Entity × ℚ :=
  tierOrder.foldl (fun st tier => drainList tier st.1 st.2) (es, cost)

/-- Section A of the year loop: every event whose trigger age equals the
current simulated age draws its cost inflated by `(1+inflation)^year`. -/
def applyLifeEvents (events : List LifeEvent) (inflation_rate : ℚ) (year : ℕ)
    (current_age : ℤ) (es : List Entity) : List Entity :=
  events.foldl (fun acc ev =>
    if ev.age = current_age then (applyEventCost acc (ev.cost * (1 + inflation_rate) ^ year)).1
    else acc) es

/-- Section B per-entity update: `project_year` / `pay_down_year`, applied
only when `year > 0`. -/
def stepEntity (contrib_growth : ℚ) (year : ℕ) : Entity → Entity
  | .asset a => .asset (if 0 < year then a.project_year contrib_growth else a)
  | .liability l => .liability (if 0 < year then l.pay_down_year else l)

/-- Section B applied across the working entity list. -/
def stepEntities (contrib_growth : ℚ) (year : ℕ) (es : List Entity) : List Entity :=
  es.map (stepEntity contrib_growth year)

/-- The inflation-discounted value recorded in the row: `balance / (1+infl)^year`
for an asset, and its negation for a liability. -/
def signedRealValue (inflation_rate : ℚ) (year : ℕ) : Entity → ℚ
  | .asset a => a.balance / (1 + inflation_rate) ^ year
  | .liability l => -(l.balance / (1 + inflation_rate) ^ year)

/-- The per-entity value columns of the row, in entity order. -/
def rowValues (inflation_rate : ℚ) (year : ℕ) (es : List Entity) : List (String × ℚ) :=
  es.map (fun e => (e.name, signedRealValue inflation_rate year e))

/-- The safe-withdrawal eligibility test of `logic.py` line 128:
`(item.tax_status in ['Taxable', 'Roth', 'Cash']) or can_access_retirement`
with `can_access_retirement = current_age >= retirement_age`. -/
def swrEligible (current_age retirement_age : ℤ) (a : Asset) : Bool :=
  (["Taxable", "Roth", "Cash"] : List String).contains a.tax_status.str
    || decide (retirement_age ≤ current_age)

/-- The amount one asset adds to `gross_swr_base`: its real value when
eligible, 0 otherwise. -/
def baseContribution (inflation_rate : ℚ) (year : ℕ) (current_age retirement_age : ℤ)
    (a : Asset) : ℚ :=
  if swrEligible current_age retirement_age a then a.balance / (1 + inflation_rate) ^ year
  else 0

/-- The amount one entity adds to `gross_swr_base` (liabilities add nothing). -/
def entityBaseContribution (inflation_rate : ℚ) (year : ℕ)
    (current_age retirement_age : ℤ) : Entity → ℚ
  | .asset a => baseContribution inflation_rate year current_age retirement_age a
  | .liability _ => 0

/-- `gross_swr_base` accumulated over the entity loop of section B. -/
def swrBase (inflation_rate : ℚ) (year : ℕ) (current_age retirement_age : ℤ)
    (es : List Entity) : ℚ :=
  (es.map (entityBaseContribution inflation_rate year current_age retirement_age)).sum

/-- Scan of an association list from the front; `rowLookup` feeds it the
reversed list so that the value written last wins, as in the source's dict. -/
def lookupLast : List (String × ℚ) → String → ℚ
  | [], _ => 0
  | q :: rest, key => if q.1 = key then q.2 else lookupLast rest key

/-- `row.get(name, 0)`: dictionary access over the per-entity value columns
(the last value written for the key, default 0). -/
def rowLookup (vals : List (String × ℚ)) (key : String) : ℚ :=
  lookupLast vals.reverse key

/-- Section C: net passive income from the gross SWR income, progressive or
flat depending on the flag. -/
def netPassive (p : SimParams) (gross : ℚ) : ℚ :=
  if p.use_progressive then gross - calculate_progressive_tax gross p.filing_status
  else gross * (1 - p.tax_flat_rate)

/-- Section D: per-entity income columns.  With a positive base every entity
gets a column — eligible assets receive `net * (row.get(name,0) / base)`,
everything else 0; with a non-positive base only assets get a column, all 0. -/
def rowIncomes (p : SimParams) (current_age : ℤ) (base net : ℚ)
    (vals : List (String × ℚ)) (es : List Entity) : List (String × ℚ) :=
  if 0 < base then
    es.map (fun e =>
      match e with
      | .asset a =>
          (a.name ++ " Income",
            if swrEligible current_age p.retirement_age a then
              net * (rowLookup vals a.name / base)
            else 0)
      | .liability l => (l.name ++ " Income", 0))
  else
    es.filterMap (fun e =>
      match e with
      | .asset a => some (a.name ++ " Income", (0 : ℚ))
      | .liability _ => none)

/-- One emitted ProjectionRow: the fixed columns as named fields, the dynamic
per-entity columns as association lists in insertion order. -/
structure Row where
  year : ℤ
  age : ℤ
  values : List (String × ℚ)
  incomes : List (String × ℚ)
  net_worth : ℚ
  passive_income : ℚ
  annual_spending : ℚ
deriving DecidableEq, Repr

/-- Sections B–D assembled into the year's row (entities already stepped). -/
def buildRow (p : SimParams) (year : ℕ) (current_age current_year : ℤ)
    (es : List Entity) : Row :=
  let vals := rowValues p.inflation_rate year es
  let base := swrBase p.inflation_rate year current_age p.retirement_age es
  let gross := base * p.swr
  let net := netPassive p gross
  { year := current_year
    age := current_age
    values := vals
    incomes := rowIncomes p current_age base net vals es
    net_worth := (vals.map Prod.snd).sum
    passive_income := net
    annual_spending := p.annual_spend }

/-- One iteration of the year loop acting on the entity state: section A
(life events on the pre-growth state) followed by section B's updates. -/
def yearStep (p : SimParams) (events : List LifeEvent) (user_age : ℤ) (year : ℕ)
    (es : List Entity) : List Entity :=
  stepEntities p.contrib_growth year
    (applyLifeEvents events p.inflation_rate year (user_age + year) es)

/-- The year loop: `fuel` rows remain, the current 0-based year index and
calendar year advance together, entity state threads through. -/
def simLoop (p : SimParams) (events : List LifeEvent) (user_age : ℤ) :
    ℕ → ℕ → ℤ → List Entity → List Row
  | 0, _, _, _ => []
  | fuel + 1, year, current_year, es =>
      let current_age := user_age + year
      let es2 := yearStep p events user_age year es
      buildRow p year current_age current_year es2 ::
        simLoop p events user_age fuel (year + 1) (current_year + 1) es2

/-- `run_simulation` of `logic.py`: `current_year_date` is the calendar year
the source reads from the wall clock at entry; `years_to_project` is accepted
and, as in the source, never used — the loop always runs
`range((85 - user_age) + 1)` years. -/
def run_simulation (portfolio : List Entity) (life_events : List LifeEvent)
    (user_age : ℤ) (years_to_project : ℕ) (p : SimParams)
    (current_year_date : ℤ) : List Row :=
  let max_projection_years : ℤ := 85 - user_age
  simLoop p life_events user_age (max_projection_years + 1).toNat 0 current_year_date portfolio

/-! ### Specification-side definitions, invariants, and fixtures -/

/-- The safe-withdrawal eligibility rule exactly as the specification words
it (spec §4.4 step 4): tax status Taxable or Roth, or category "Cash", or
the retirement-eligibility age reached.  Stated for comparison with the
source-derived `swrEligible`. -/
def specClaimedEligible (current_age retirement_age : ℤ) (a : Asset) : Prop :=
  a.tax_status = .taxable ∨ a.tax_status = .roth ∨ a.category = "Cash"
    ∨ retirement_age ≤ current_age

/-- The specification's closed-form reading of the bracket walk (spec §4.2):
each bracket taxes the part of taxable income lying between the previous
bound and its own bound at its marginal rate, and whatever exceeds the last
listed bound is taxed at the fixed top rate 0.37. -/
def sliceSum (taxable : ℚ) : List (ℚ × ℚ) → ℚ → ℚ
  | [], previous_limit => 0.37 * (max taxable previous_limit - previous_limit)
  | (rate, limit) :: rest, previous_limit =>
      rate * (min taxable limit - min taxable previous_limit) + sliceSum taxable rest limit

/-- The specification's attribution rule (spec §4.4 step 7): an eligible
asset receives net income in proportion to its share of the withdrawal base,
an ineligible asset (and any liability) receives 0. -/
def specAttributedIncome (p : SimParams) (inflation_rate : ℚ) (year : ℕ)
    (current_age : ℤ) (base net : ℚ) : Entity → ℚ
  | .asset a =>
      if swrEligible current_age p.retirement_age a then
        net * (baseContribution inflation_rate year current_age p.retirement_age a / base)
      else 0
  | .liability _ => 0

/-- Well-formedness carried by an asset through a run: non-negative balance
and contribution, and a growth rate of at least −100 %. -/
def assetInv (a : Asset) : Prop :=
  0 ≤ a.balance ∧ 0 ≤ a.annual_contribution ∧ -1 ≤ a.annual_growth_rate

/-- Entity-level invariant: `assetInv` for assets, non-negative balance for
liabilities. -/
def entityInv : Entity → Prop
  | .asset a => assetInv a
  | .liability l => 0 ≤ l.balance

/-- The invariant over a whole working entity set. -/
def entitiesInv (es : List Entity) : Prop := ∀ e ∈ es, entityInv e

/-- Non-negativity of every asset balance in the entity set (liabilities
unconstrained). -/
def assetsNonneg (es : List Entity) : Prop :=
  ∀ a : Asset, Entity.asset a ∈ es → 0 ≤ a.balance

/-- The liabilities of an entity set, in order. -/
def entityLiabs (es : List Entity) : List Liability :=
  es.filterMap fun e => match e with
    | .liability l => some l
    | .asset _ => none

/-- Total nominal asset balance of an entity set. -/
def totalAssetBalance (es : List Entity) : ℚ :=
  (es.map fun e => match e with
    | .asset a => a.balance
    | .liability _ => 0).sum

/-- Total nominal balance available to one withdrawal tier. -/
def tierSum (tier : List String) (es : List Entity) : ℚ :=
  (es.map fun e => match e with
    | .asset a => if tierMatch tier a then a.balance else 0
    | .liability _ => 0).sum

/-- Every asset of the set matching the tier has been drained to 0. -/
def allMatchedDrained (tier : List String) (es : List Entity) : Prop :=
  ∀ a : Asset, Entity.asset a ∈ es → tierMatch tier a → a.balance = 0

/-- A row with its calendar-year column blanked, used to state which output
fields depend on the wall-clock year the source reads at entry. -/
def stripYear (r : Row) : Row := { r with year := 0 }

/-- Growth example of spec §8: B=10000, r=0.07, C=1200. -/
def exAsset : Asset := ⟨"Example", 10000, 1200, 0.07, .taxable, "Stock Market"⟩

/-- Amortization example of spec §8: balance 1200, 12 % annual rate, 1300
monthly payment. -/
def exLoan : Liability := ⟨"Loan", 1200, 0.12, 1300, "Debt"⟩

/-- A "Cash"-category asset whose tax status is N/A. -/
def cashAsset : Asset := ⟨"Emergency Fund", 1000, 0, 0, .na, "Cash"⟩

/-- A Pre-Tax retirement account (the `storage.py` default 401k shape). -/
def preTaxAsset : Asset := ⟨"401k", 50000, 12000, 0.07, .preTax, "Stock Market"⟩

/-- An asset with a growth rate below −100 %. -/
def badAsset : Asset := ⟨"Leveraged", 100, 0, -2, .taxable, "Stock Market"⟩

/-- A small taxable cash account. -/
def wAsset : Asset := ⟨"Checking", 10, 0, 0, .taxable, "Cash"⟩

/-- The default scalar settings persisted by `storage.py`. -/
def pDefault : SimParams := ⟨0.025, 0.03, 0.04, 60000, "Single", true, 0.15, 65⟩

/-- A small mixed entity set: a taxable cash account, a Pre-Tax account and
one liability. -/
def demoEntities : List Entity := [.asset wAsset, .asset preTaxAsset, .liability exLoan]

/-! ### Helper lemmas -/

theorem payDownMonths_succ (rate payment b : ℚ) (n : ℕ) :
    payDownMonths rate payment (n + 1) b =
      if b ≤ 0 then b else payDownMonths rate payment n (b + b * (rate / 12) - payment) := rfl

theorem payDownMonths_of_nonpos (rate payment : ℚ) (n : ℕ) (b : ℚ) (hb : b ≤ 0) :
    payDownMonths rate payment n b = b := by
  cases n with
  | zero => rfl
  | succ n => rw [payDownMonths_succ, if_pos hb]

theorem pay_down_year_balance (l : Liability) :
    l.pay_down_year.balance =
      if payDownMonths l.annual_interest_rate l.monthly_payment 12 l.balance < 0 then 0
      else payDownMonths l.annual_interest_rate l.monthly_payment 12 l.balance := rfl

theorem project_year_balance (a : Asset) (g : ℚ) :
    (a.project_year g).balance
      = a.balance + (a.balance * a.annual_growth_rate + a.annual_contribution * (1 + g)) := rfl

theorem project_year_contribution (a : Asset) (g : ℚ) :
    (a.project_year g).annual_contribution = a.annual_contribution * (1 + g) := rfl

theorem withdraw_fst_balance (a : Asset) (amount : ℚ) :
    (a.withdraw amount).1.balance = if amount ≤ a.balance then a.balance - amount else 0 := by
  unfold Asset.withdraw
  split <;> rfl

theorem withdraw_snd (a : Asset) (amount : ℚ) :
    (a.withdraw amount).2 = if amount ≤ a.balance then amount else a.balance := by
  unfold Asset.withdraw
  split <;> rfl

theorem pay_down_year_nonneg (l : Liability) : 0 ≤ l.pay_down_year.balance := by
  rw [pay_down_year_balance]
  split
  · exact le_refl 0
  · exact not_lt.mp (by assumption)

theorem pay_down_year_of_entry_nonpos (l : Liability) (hb : l.balance ≤ 0) :
    l.pay_down_year.balance = 0 := by
  rw [pay_down_year_balance, payDownMonths_of_nonpos _ _ _ _ hb]
  split
  · rfl
  · linarith [not_lt.mp (by assumption)]

theorem pay_down_year_first_step_zero (l : Liability) (hb : 0 < l.balance)
    (hstep : l.balance + l.balance * (l.annual_interest_rate / 12) - l.monthly_payment ≤ 0) :
    l.pay_down_year.balance = 0 := by
  rw [pay_down_year_balance, show (12 : ℕ) = 11 + 1 from rfl, payDownMonths_succ,
    if_neg (not_le.mpr hb), payDownMonths_of_nonpos _ _ _ _ hstep]
  split
  · rfl
  · linarith [not_lt.mp (by assumption)]

theorem withdraw_balance_nonneg (a : Asset) (amount : ℚ) :
    0 ≤ (a.withdraw amount).1.balance := by
  rw [withdraw_fst_balance]
  split
  · linarith [(by assumption : amount ≤ a.balance)]
  · exact le_refl 0

/-! ### C3: annual growth order -/

/-- C3: one `project_year` call computes growth on the pre-escalation
balance, stores the escalated contribution `C·(1+g)`, and sets the balance to
exactly `B + B·r + C·(1+g)`; on B=10000, r=0.07, C=1200, g=0.03 the growth
term is 700, the stored contribution becomes 1236 and the balance 11936. -/
theorem C3_growth_order :
    (∀ (a : Asset) (g : ℚ),
        (a.project_year g).balance
            = a.balance + a.balance * a.annual_growth_rate + a.annual_contribution * (1 + g)
        ∧ (a.project_year g).annual_contribution = a.annual_contribution * (1 + g))
    ∧ exAsset.balance * exAsset.annual_growth_rate = 700
    ∧ (exAsset.project_year 0.03).annual_contribution = 1236
    ∧ (exAsset.project_year 0.03).balance = 11936 := by
  refine ⟨fun a g => ⟨?_, project_year_contribution a g⟩,
    by norm_num [exAsset],
    by norm_num [project_year_contribution, exAsset],
    by norm_num [project_year_balance, exAsset]⟩
  rw [project_year_balance]
  ring

/-! ### C4: annual amortization clamp -/

/-- C4: `pay_down_year` runs at most 12 monthly steps of
`b ↦ b + b·(rate/12) − payment`, stops as soon as the balance is ≤ 0, and
clamps any negative residual to exactly 0; the spec §8 example
(1200 balance, 12 % rate, 1300 payment) hits 0 within the first monthly step
and stays 0 in every later year. -/
theorem C4_amortization_clamp :
    (∀ l : Liability, 0 ≤ l.pay_down_year.balance)
    ∧ (∀ l : Liability, l.balance ≤ 0 → l.pay_down_year.balance = 0)
    ∧ (∀ l : Liability, 0 < l.balance →
        l.balance + l.balance * (l.annual_interest_rate / 12) - l.monthly_payment ≤ 0 →
        l.pay_down_year.balance = 0)
    ∧ exLoan.balance + exLoan.balance * (exLoan.annual_interest_rate / 12)
        - exLoan.monthly_payment ≤ 0
    ∧ exLoan.pay_down_year.balance = 0
    ∧ exLoan.pay_down_year.pay_down_year.balance = 0 := by
  have hstep : exLoan.balance + exLoan.balance * (exLoan.annual_interest_rate / 12)
      - exLoan.monthly_payment ≤ 0 := by norm_num [exLoan]
  have h1 : exLoan.pay_down_year.balance = 0 :=
    pay_down_year_first_step_zero exLoan (by norm_num [exLoan]) hstep
  exact ⟨pay_down_year_nonneg, pay_down_year_of_entry_nonpos, pay_down_year_first_step_zero,
    hstep, h1, pay_down_year_of_entry_nonpos _ (le_of_eq h1)⟩

/-- C4 witness: the generic clauses instantiated on the spec §8 loan. -/
theorem C4_amortization_clamp_witness :
    ({ exLoan with balance := 0 } : Liability).pay_down_year.balance = 0
    ∧ exLoan.pay_down_year.balance = 0 :=
  ⟨C4_amortization_clamp.2.1 { exLoan with balance := 0 } (by norm_num),
   C4_amortization_clamp.2.2.1 exLoan (by norm_num [exLoan]) C4_amortization_clamp.2.2.2.1⟩

/-! ### C8: withdraw contract -/

/-- C8 counterexample: the claim asserts the returned amount is ≥ 0 for
every requested amount, but `withdraw(-5)` on a 10-balance asset returns −5
and raises the balance to 15. -/
theorem C8_negative_amount_counterexample :
    (wAsset.withdraw (-5)).2 < 0 ∧ (wAsset.withdraw (-5)).1.balance = 15 := by
  rw [withdraw_snd, withdraw_fst_balance]
  norm_num [wAsset]

/-- C8 amended: `withdraw` returns exactly `min(amount, old balance)`, the
new balance is the old balance minus the returned amount, the return is ≤
the request, and the new balance is never negative; the return is ≥ 0
provided the requested amount and the old balance are ≥ 0 (for a negative
request the call adds money and returns the negative request). -/
theorem C8_withdraw_contract :
    ∀ (a : Asset) (amount : ℚ),
      (a.withdraw amount).2 = min amount a.balance
      ∧ (a.withdraw amount).1.balance = a.balance - (a.withdraw amount).2
      ∧ (a.withdraw amount).2 ≤ amount
      ∧ 0 ≤ (a.withdraw amount).1.balance
      ∧ (0 ≤ amount → 0 ≤ a.balance → 0 ≤ (a.withdraw amount).2) := by
  intro a amount
  refine ⟨?_, ?_, ?_, withdraw_balance_nonneg a amount, ?_⟩
  · rw [withdraw_snd]
    split
    · rw [min_eq_left (by assumption)]
    · rw [min_eq_right (le_of_not_le (by assumption))]
  · rw [withdraw_snd, withdraw_fst_balance]
    split
    · rfl
    · simp
  · rw [withdraw_snd]
    split
    · exact le_refl amount
    · exact le_of_not_le (by assumption)
  · intro h1 h2
    rw [withdraw_snd]
    split
    · exact h1
    · exact h2

/-- C8 witness: the contract instantiated at a non-negative request. -/
theorem C8_withdraw_contract_witness :
    (wAsset.withdraw 7).2 = min 7 wAsset.balance ∧ 0 ≤ (wAsset.withdraw 7).2 :=
  ⟨(C8_withdraw_contract wAsset 7).1,
   (C8_withdraw_contract wAsset 7).2.2.2.2 (by norm_num) (by norm_num [wAsset])⟩

/-! ### C1: safe-withdrawal base eligibility -/

theorem swrEligible_iff (current_age retirement_age : ℤ) (a : Asset) :
    swrEligible current_age retirement_age a = true
      ↔ (a.tax_status = .taxable ∨ a.tax_status = .roth ∨ retirement_age ≤ current_age) := by
  cases h : a.tax_status <;> simp [swrEligible, TaxType.str, h]

/-- C1 counterexample: a "Cash"-category asset with tax status N/A at age 30
(retirement age 65) satisfies the claimed eligibility rule, yet the source's
base test rejects it, so it contributes 0 to the withdrawal base instead of
its full real value 1000. -/
theorem C1_cash_category_excluded :
    specClaimedEligible 30 65 cashAsset
    ∧ swrEligible 30 65 cashAsset = false
    ∧ baseContribution 0.025 0 30 65 cashAsset = 0
    ∧ cashAsset.balance / (1 + (0.025 : ℚ)) ^ (0 : ℕ) = 1000
    ∧ swrBase 0.025 0 30 65 [.asset cashAsset] = 0 := by
  have h2 : swrEligible 30 65 cashAsset = false := by decide
  have h3 : baseContribution 0.025 0 30 65 cashAsset = 0 := by
    unfold baseContribution
    rw [h2]
    simp
  refine ⟨Or.inr (Or.inr (Or.inl rfl)), h2, h3, by norm_num [cashAsset], ?_⟩
  unfold swrBase
  simp [entityBaseContribution, h3]

/-- C1 amended: an asset is counted in the withdrawal base iff its tax
status is Taxable or Roth or the retirement-eligibility age is reached; the
`category` field (in particular "Cash") plays no role in the base test, so a
Cash-category asset with tax status N/A or Pre-Tax is excluded before
eligibility age.  A Pre-Tax asset contributes 0 before eligibility age and
its full real value once eligible, as the claim states. -/
theorem C1_swr_base_eligibility :
    (∀ (current_age retirement_age : ℤ) (a : Asset),
        swrEligible current_age retirement_age a = true
          ↔ (a.tax_status = .taxable ∨ a.tax_status = .roth
              ∨ retirement_age ≤ current_age))
    ∧ (∀ (inflation_rate : ℚ) (year : ℕ) (current_age retirement_age : ℤ) (a : Asset),
        a.tax_status = .preTax → current_age < retirement_age →
        baseContribution inflation_rate year current_age retirement_age a = 0)
    ∧ (∀ (inflation_rate : ℚ) (year : ℕ) (current_age retirement_age : ℤ) (a : Asset),
        retirement_age ≤ current_age →
        baseContribution inflation_rate year current_age retirement_age a
          = a.balance / (1 + inflation_rate) ^ year) := by
  refine ⟨swrEligible_iff, ?_, ?_⟩
  · intro infl year ca ra a hpre hlt
    unfold baseContribution
    have : swrEligible ca ra a = false := by
      rw [← Bool.not_eq_true, swrEligible_iff]
      simp [hpre, not_le.mpr hlt]
    rw [this]
    simp
  · intro infl year ca ra a hge
    unfold baseContribution
    have : swrEligible ca ra a = true := (swrEligible_iff ca ra a).mpr (Or.inr (Or.inr hge))
    rw [this]
    simp

/-- C1 witness: the amended clauses instantiated on the default 401k asset
before (age 30) and after (age 70) the retirement-eligibility age 65. -/
theorem C1_swr_base_eligibility_witness :
    baseContribution 0.025 0 30 65 preTaxAsset = 0
    ∧ baseContribution 0.025 0 70 65 preTaxAsset
        = preTaxAsset.balance / (1 + (0.025 : ℚ)) ^ (0 : ℕ) :=
  ⟨C1_swr_base_eligibility.2.1 0.025 0 30 65 preTaxAsset rfl (by norm_num),
   C1_swr_base_eligibility.2.2 0.025 0 70 65 preTaxAsset (by norm_num)⟩

/-! ### Allocator shape lemmas -/

theorem drainList_nil (tier : List String) (r : ℚ) : drainList tier [] r = ([], r) := rfl

theorem drainList_liab (tier : List String) (l : Liability) (rest : List Entity) (r : ℚ) :
    drainList tier (.liability l :: rest) r
      = (.liability l :: (drainList tier rest r).1, (drainList tier rest r).2) := rfl

theorem drainList_asset (tier : List String) (a : Asset) (rest : List Entity) (r : ℚ) :
    drainList tier (.asset a :: rest) r
      = if 0 < r ∧ tierMatch tier a then
          (.asset (a.withdraw r).1 :: (drainList tier rest (r - (a.withdraw r).2)).1,
            (drainList tier rest (r - (a.withdraw r).2)).2)
        else (.asset a :: (drainList tier rest r).1, (drainList tier rest r).2) := by
  simp only [drainList]

theorem applyEventCost_eq (es : List Entity) (cost : ℚ) :
    applyEventCost es cost =
      drainList ["Pre-Tax"]
        (drainList ["Roth"] (drainList ["Cash", "Taxable"] es cost).1
            (drainList ["Cash", "Taxable"] es cost).2).1
        (drainList ["Roth"] (drainList ["Cash", "Taxable"] es cost).1
            (drainList ["Cash", "Taxable"] es cost).2).2 := rfl

theorem applyLifeEvents_nil (inflation_rate : ℚ) (year : ℕ) (age : ℤ) (es : List Entity) :
    applyLifeEvents [] inflation_rate year age es = es := rfl

theorem applyLifeEvents_cons (ev : LifeEvent) (events : List LifeEvent)
    (inflation_rate : ℚ) (year : ℕ) (age : ℤ) (es : List Entity) :
    applyLifeEvents (ev :: events) inflation_rate year age es
      = applyLifeEvents events inflation_rate year age
          (if ev.age = age then (applyEventCost es (ev.cost * (1 + inflation_rate) ^ year)).1
           else es) := rfl

theorem withdraw_fst (a : Asset) (amount : ℚ) :
    (a.withdraw amount).1
      = { a with balance := if amount ≤ a.balance then a.balance - amount else 0 } := by
  unfold Asset.withdraw
  split <;> simp_all

/-! ### C2: non-negativity invariant -/

theorem entitiesInv_nil : entitiesInv [] := fun e he => absurd he (List.not_mem_nil e)

theorem entitiesInv_cons {e : Entity} {es : List Entity} :
    entitiesInv (e :: es) ↔ entityInv e ∧ entitiesInv es := by
  unfold entitiesInv
  exact List.forall_mem_cons

theorem withdraw_assetInv {a : Asset} (h : assetInv a) (amount : ℚ) :
    assetInv (a.withdraw amount).1 := by
  obtain ⟨h1, h2, h3⟩ := h
  refine ⟨withdraw_balance_nonneg a amount, ?_, ?_⟩ <;> rw [withdraw_fst]
  · exact h2
  · exact h3

theorem project_year_assetInv {a : Asset} (h : assetInv a) {g : ℚ} (hg : -1 ≤ g) :
    assetInv (a.project_year g) := by
  obtain ⟨hb, hc, hr⟩ := h
  have h1 : 0 ≤ a.balance + a.balance * a.annual_growth_rate := by
    nlinarith [mul_nonneg hb (show (0 : ℚ) ≤ 1 + a.annual_growth_rate by linarith)]
  have h2 : 0 ≤ a.annual_contribution * (1 + g) :=
    mul_nonneg hc (by linarith)
  refine ⟨?_, ?_, hr⟩
  · rw [project_year_balance]
    linarith
  · rw [project_year_contribution]
    exact h2

theorem drainList_entitiesInv (tier : List String) :
    ∀ (es : List Entity) (r : ℚ), entitiesInv es → entitiesInv (drainList tier es r).1 := by
  intro es
  induction es with
  | nil =>
      intro r _
      rw [drainList_nil]
      exact entitiesInv_nil
  | cons e rest ih =>
      intro r h
      obtain ⟨he, hrest⟩ := entitiesInv_cons.mp h
      cases e with
      | liability l =>
          rw [drainList_liab]
          exact entitiesInv_cons.mpr ⟨he, ih r hrest⟩
      | asset a =>
          rw [drainList_asset]
          split
          · exact entitiesInv_cons.mpr ⟨withdraw_assetInv he _, ih _ hrest⟩
          · exact entitiesInv_cons.mpr ⟨he, ih r hrest⟩

theorem applyEventCost_entitiesInv (es : List Entity) (cost : ℚ) (h : entitiesInv es) :
    entitiesInv (applyEventCost es cost).1 := by
  rw [applyEventCost_eq]
  exact drainList_entitiesInv _ _ _ (drainList_entitiesInv _ _ _ (drainList_entitiesInv _ _ _ h))

theorem applyLifeEvents_entitiesInv (events : List LifeEvent) (inflation_rate : ℚ)
    (year : ℕ) (age : ℤ) :
    ∀ es : List Entity, entitiesInv es →
      entitiesInv (applyLifeEvents events inflation_rate year age es) := by
  induction events with
  | nil =>
      intro es h
      rw [applyLifeEvents_nil]
      exact h
  | cons ev rest ih =>
      intro es h
      rw [applyLifeEvents_cons]
      apply ih
      split
      · exact applyEventCost_entitiesInv _ _ h
      · exact h

theorem stepEntities_entitiesInv (g : ℚ) (year : ℕ) (hg : -1 ≤ g) :
    ∀ es : List Entity, entitiesInv es → entitiesInv (stepEntities g year es) := by
  intro es h e he
  rcases List.mem_map.mp he with ⟨e0, he0, rfl⟩
  have h0 := h e0 he0
  cases e0 with
  | asset a =>
      show entityInv (.asset (if 0 < year then a.project_year g else a))
      split
      · exact project_year_assetInv h0 hg
      · exact h0
  | liability l =>
      show entityInv (.liability (if 0 < year then l.pay_down_year else l))
      split
      · exact pay_down_year_nonneg l
      · exact h0

/-- C2 counterexample: the engine accepts a growth rate of −200 %, and one
`project_year` call then drives a 100-balance asset to −100 — the claimed
unconditional non-negativity fails for some accepted configurations. -/
theorem C2_negative_growth_breaks_nonneg : (badAsset.project_year 0.03).balance < 0 := by
  rw [project_year_balance]
  norm_num [badAsset]

/-- C2 amended: balances stay ≥ 0 under the well-formedness the invariant
needs — `withdraw` and `pay_down_year` keep balances non-negative
unconditionally, `project_year` does so provided the asset has non-negative
balance and contribution and growth rate ≥ −1 with contribution growth
≥ −1, and a whole simulated year (life events then growth/amortization)
preserves the invariant over the entity set under those bounds.  Without the
rate bound (e.g. growth rate −2, which the engine accepts) an asset balance
can go negative. -/
theorem C2_nonneg_invariant :
    (∀ (a : Asset) (amount : ℚ), 0 ≤ (a.withdraw amount).1.balance)
    ∧ (∀ l : Liability, 0 ≤ l.pay_down_year.balance)
    ∧ (∀ (a : Asset) (g : ℚ), assetInv a → -1 ≤ g → assetInv (a.project_year g))
    ∧ (∀ (p : SimParams) (events : List LifeEvent) (user_age : ℤ) (year : ℕ)
          (es : List Entity), -1 ≤ p.contrib_growth → entitiesInv es →
          entitiesInv (yearStep p events user_age year es)) := by
  refine ⟨withdraw_balance_nonneg, pay_down_year_nonneg,
    fun a g ha hg => project_year_assetInv ha hg, ?_⟩
  intro p events user_age year es hg h
  exact stepEntities_entitiesInv _ _ hg _
    (applyLifeEvents_entitiesInv _ _ _ _ _ h)

/-- C2 witness: the growth clause at the spec §8 asset and the year-step
clause on the default parameters. -/
theorem C2_nonneg_invariant_witness :
    assetInv (exAsset.project_year 0.03)
    ∧ entitiesInv (yearStep pDefault [] 30 0 [.asset exAsset, .liability exLoan]) :=
  ⟨C2_nonneg_invariant.2.2.1 exAsset 0.03
      ⟨by norm_num [exAsset], by norm_num [exAsset], by norm_num [exAsset]⟩ (by norm_num),
   C2_nonneg_invariant.2.2.2 pDefault [] 30 0 [.asset exAsset, .liability exLoan]
      (by norm_num [pDefault])
      (by
        intro e he
        rcases List.mem_cons.mp he with rfl | he
        · exact ⟨by norm_num [exAsset], by norm_num [exAsset], by norm_num [exAsset]⟩
        · rcases List.mem_cons.mp he with rfl | he
          · show (0 : ℚ) ≤ exLoan.balance
            norm_num [exLoan]
          · exact absurd he (List.not_mem_nil e))⟩

/-! ### C6: life-event withdrawal allocator -/

theorem withdraw_balance_eq_sub (a : Asset) (amount : ℚ) :
    (a.withdraw amount).1.balance = a.balance - (a.withdraw amount).2 := by
  rw [withdraw_fst_balance, withdraw_snd]
  split
  · rfl
  · simp

theorem entityLiabs_cons_asset (a : Asset) (es : List Entity) :
    entityLiabs (.asset a :: es) = entityLiabs es := rfl

theorem entityLiabs_cons_liab (l : Liability) (es : List Entity) :
    entityLiabs (.liability l :: es) = l :: entityLiabs es := rfl

theorem totalAssetBalance_cons_asset (a : Asset) (es : List Entity) :
    totalAssetBalance (.asset a :: es) = a.balance + totalAssetBalance es := by
  simp [totalAssetBalance]

theorem totalAssetBalance_cons_liab (l : Liability) (es : List Entity) :
    totalAssetBalance (.liability l :: es) = totalAssetBalance es := by
  simp [totalAssetBalance]

theorem tierSum_cons_asset (tier : List String) (a : Asset) (es : List Entity) :
    tierSum tier (.asset a :: es)
      = (if tierMatch tier a then a.balance else 0) + tierSum tier es := by
  simp [tierSum]

theorem tierSum_cons_liab (tier : List String) (l : Liability) (es : List Entity) :
    tierSum tier (.liability l :: es) = tierSum tier es := by
  simp [tierSum]

theorem assetsNonneg_nil : assetsNonneg [] := fun _ ha => absurd ha (List.not_mem_nil _)

theorem assetsNonneg_cons_asset {a : Asset} {es : List Entity} :
    assetsNonneg (.asset a :: es) ↔ 0 ≤ a.balance ∧ assetsNonneg es := by
  constructor
  · intro h
    exact ⟨h a (List.mem_cons_self _ _), fun a' ha' => h a' (List.mem_cons_of_mem _ ha')⟩
  · rintro ⟨h1, h2⟩ a' ha'
    rcases List.mem_cons.mp ha' with heq | hmem
    · obtain rfl : a' = a := by injection heq
      exact h1
    · exact h2 a' hmem

theorem assetsNonneg_cons_liab {l : Liability} {es : List Entity} :
    assetsNonneg (.liability l :: es) ↔ assetsNonneg es := by
  constructor
  · intro h a' ha'
    exact h a' (List.mem_cons_of_mem _ ha')
  · intro h a' ha'
    rcases List.mem_cons.mp ha' with heq | hmem
    · simp at heq
    · exact h a' hmem

theorem allMatchedDrained_cons_asset {tier : List String} {a : Asset} {es : List Entity} :
    allMatchedDrained tier (.asset a :: es)
      ↔ (tierMatch tier a → a.balance = 0) ∧ allMatchedDrained tier es := by
  constructor
  · intro h
    exact ⟨h a (List.mem_cons_self _ _), fun a' ha' => h a' (List.mem_cons_of_mem _ ha')⟩
  · rintro ⟨h1, h2⟩ a' ha' hm
    rcases List.mem_cons.mp ha' with heq | hmem
    · obtain rfl : a' = a := by injection heq
      exact h1 hm
    · exact h2 a' hmem hm

theorem allMatchedDrained_cons_liab {tier : List String} {l : Liability} {es : List Entity} :
    allMatchedDrained tier (.liability l :: es) ↔ allMatchedDrained tier es := by
  constructor
  · intro h a' ha'
    exact h a' (List.mem_cons_of_mem _ ha')
  · intro h a' ha' hm
    rcases List.mem_cons.mp ha' with heq | hmem
    · simp at heq
    · exact h a' hmem hm

theorem tierSum_nonneg (tier : List String) :
    ∀ es : List Entity, assetsNonneg es → 0 ≤ tierSum tier es := by
  intro es
  induction es with
  | nil => intro _; simp [tierSum]
  | cons e rest ih =>
      intro h
      cases e with
      | asset a =>
          obtain ⟨h1, h2⟩ := assetsNonneg_cons_asset.mp h
          rw [tierSum_cons_asset]
          have := ih h2
          split <;> linarith
      | liability l =>
          rw [tierSum_cons_liab]
          exact ih (assetsNonneg_cons_liab.mp h)

theorem drainList_of_nonpos (tier : List String) :
    ∀ (es : List Entity) (r : ℚ), r ≤ 0 → drainList tier es r = (es, r) := by
  intro es
  induction es with
  | nil => intro r _; rw [drainList_nil]
  | cons e rest ih =>
      intro r hr
      cases e with
      | liability l => rw [drainList_liab, ih r hr]
      | asset a =>
          rw [drainList_asset, if_neg (fun hc => absurd hc.1 (not_lt.mpr hr)), ih r hr]

theorem drainList_liabs (tier : List String) :
    ∀ (es : List Entity) (r : ℚ), entityLiabs (drainList tier es r).1 = entityLiabs es := by
  intro es
  induction es with
  | nil => intro r; rw [drainList_nil]
  | cons e rest ih =>
      intro r
      cases e with
      | liability l =>
          rw [drainList_liab, entityLiabs_cons_liab, entityLiabs_cons_liab, ih]
      | asset a =>
          rw [drainList_asset]
          split
          · rw [entityLiabs_cons_asset, entityLiabs_cons_asset, ih]
          · rw [entityLiabs_cons_asset, entityLiabs_cons_asset, ih]

theorem drainList_conservation (tier : List String) :
    ∀ (es : List Entity) (r : ℚ),
      totalAssetBalance (drainList tier es r).1 + r
        = totalAssetBalance es + (drainList tier es r).2 := by
  intro es
  induction es with
  | nil => intro r; rw [drainList_nil]
  | cons e rest ih =>
      intro r
      cases e with
      | liability l =>
          rw [drainList_liab, totalAssetBalance_cons_liab, totalAssetBalance_cons_liab, ih]
      | asset a =>
          rw [drainList_asset]
          split
          · rw [totalAssetBalance_cons_asset, totalAssetBalance_cons_asset]
            have hw := withdraw_balance_eq_sub a r
            have := ih (r - (a.withdraw r).2)
            linarith
          · rw [totalAssetBalance_cons_asset, totalAssetBalance_cons_asset]
            have := ih r
            linarith

theorem drainList_assetsNonneg (tier : List String) :
    ∀ (es : List Entity) (r : ℚ), assetsNonneg es → assetsNonneg (drainList tier es r).1 := by
  intro es
  induction es with
  | nil =>
      intro r _
      rw [drainList_nil]
      exact assetsNonneg_nil
  | cons e rest ih =>
      intro r h
      cases e with
      | liability l =>
          rw [drainList_liab, assetsNonneg_cons_liab]
          exact ih r (assetsNonneg_cons_liab.mp h)
      | asset a =>
          obtain ⟨h1, h2⟩ := assetsNonneg_cons_asset.mp h
          rw [drainList_asset]
          split
          · exact assetsNonneg_cons_asset.mpr ⟨withdraw_balance_nonneg a r, ih _ h2⟩
          · exact assetsNonneg_cons_asset.mpr ⟨h1, ih r h2⟩

theorem drainList_remaining_eq (tier : List String) :
    ∀ (es : List Entity) (r : ℚ), assetsNonneg es → 0 ≤ r →
      (drainList tier es r).2 = max 0 (r - tierSum tier es) := by
  intro es
  induction es with
  | nil =>
      intro r _ hr
      rw [drainList_nil]
      simp only [tierSum, List.map_nil, List.sum_nil, sub_zero]
      exact (max_eq_right hr).symm
  | cons e rest ih =>
      intro r h hr
      cases e with
      | liability l =>
          rw [drainList_liab, tierSum_cons_liab]
          exact ih r (assetsNonneg_cons_liab.mp h) hr
      | asset a =>
          obtain ⟨h1, h2⟩ := assetsNonneg_cons_asset.mp h
          have hSrest := tierSum_nonneg tier rest h2
          rw [drainList_asset, tierSum_cons_asset]
          split
          case isTrue hc =>
              rw [if_pos hc.2, withdraw_snd]
              split
              case isTrue hba =>
                  rw [drainList_of_nonpos tier rest (r - r) (by linarith)]
                  have : r - (a.balance + tierSum tier rest) ≤ 0 := by linarith
                  simp only []
                  rw [max_eq_left (by linarith)]
                  linarith
              case isFalse hba =>
                  have hba' : a.balance < r := not_le.mp hba
                  rw [ih (r - a.balance) h2 (by linarith)]
                  congr 1
                  ring
          case isFalse hc =>
              rcases not_and_or.mp hc with hr0 | hm
              · have hr' : r = 0 := le_antisymm (not_lt.mp hr0) hr
                subst hr'
                rw [drainList_of_nonpos tier rest 0 (le_refl 0)]
                have hif : 0 ≤ (if tierMatch tier a then a.balance else 0 : ℚ) := by
                  split
                  · exact h1
                  · exact le_refl 0
                rw [max_eq_left (by linarith)]
              · rw [if_neg hm]
                rw [ih r h2 hr]
                simp

theorem drainList_remaining_bounds (tier : List String) (es : List Entity) (r : ℚ)
    (h : assetsNonneg es) (hr : 0 ≤ r) :
    0 ≤ (drainList tier es r).2 ∧ (drainList tier es r).2 ≤ r := by
  rw [drainList_remaining_eq tier es r h hr]
  constructor
  · exact le_max_left 0 _
  · have := tierSum_nonneg tier es h
    rcases max_cases 0 (r - tierSum tier es) with ⟨he, _⟩ | ⟨he, _⟩ <;> rw [he] <;> linarith

theorem drainList_exhausts (tier : List String) :
    ∀ (es : List Entity) (r : ℚ), assetsNonneg es →
      0 < (drainList tier es r).2 → allMatchedDrained tier (drainList tier es r).1 := by
  intro es
  induction es with
  | nil =>
      intro r _ _
      rw [drainList_nil]
      exact fun _ ha => absurd ha (List.not_mem_nil _)
  | cons e rest ih =>
      intro r h hpos
      cases e with
      | liability l =>
          rw [drainList_liab] at hpos ⊢
          rw [allMatchedDrained_cons_liab]
          exact ih r (assetsNonneg_cons_liab.mp h) hpos
      | asset a =>
          obtain ⟨h1, h2⟩ := assetsNonneg_cons_asset.mp h
          rw [drainList_asset] at hpos ⊢
          by_cases hc : 0 < r ∧ tierMatch tier a
          · rw [if_pos hc] at hpos ⊢
            by_cases hba : r ≤ a.balance
            · exfalso
              have hw2 : (a.withdraw r).2 = r := by
                rw [withdraw_snd, if_pos hba]
              rw [hw2, drainList_of_nonpos tier rest (r - r) (by linarith)] at hpos
              simp at hpos
            · have hw2 : (a.withdraw r).2 = a.balance := by
                rw [withdraw_snd, if_neg hba]
              have hwb : (a.withdraw r).1.balance = 0 := by
                rw [withdraw_fst_balance, if_neg hba]
              refine allMatchedDrained_cons_asset.mpr ⟨fun _ => hwb, ?_⟩
              exact ih _ h2 hpos
          · rw [if_neg hc] at hpos ⊢
            rcases not_and_or.mp hc with hr0 | hm
            · exfalso
              rw [drainList_of_nonpos tier rest r (not_lt.mp hr0)] at hpos
              exact absurd hpos (not_lt.mpr (not_lt.mp hr0))
            · refine allMatchedDrained_cons_asset.mpr ⟨fun hmm => absurd hmm hm, ?_⟩
              exact ih r h2 hpos

theorem drainList_preserves_drained (t tier : List String) :
    ∀ (es : List Entity) (r : ℚ), allMatchedDrained t es →
      allMatchedDrained t (drainList tier es r).1 := by
  intro es
  induction es with
  | nil =>
      intro r _
      rw [drainList_nil]
      exact fun _ ha => absurd ha (List.not_mem_nil _)
  | cons e rest ih =>
      intro r h
      cases e with
      | liability l =>
          rw [drainList_liab, allMatchedDrained_cons_liab]
          exact ih r (allMatchedDrained_cons_liab.mp h)
      | asset a =>
          obtain ⟨h1, h2⟩ := allMatchedDrained_cons_asset.mp h
          rw [drainList_asset]
          split
          case isTrue hc =>
              refine allMatchedDrained_cons_asset.mpr ⟨?_, ih _ h2⟩
              intro hm
              rw [withdraw_fst] at hm
              have hb0 : a.balance = 0 := h1 hm
              rw [withdraw_fst_balance, hb0, if_neg (not_le.mpr hc.1)]
          case isFalse hc =>
              exact allMatchedDrained_cons_asset.mpr ⟨h1, ih r h2⟩

theorem applyEventCost_liabs (es : List Entity) (cost : ℚ) :
    entityLiabs (applyEventCost es cost).1 = entityLiabs es := by
  rw [applyEventCost_eq, drainList_liabs, drainList_liabs, drainList_liabs]

theorem applyEventCost_conservation (es : List Entity) (cost : ℚ) :
    totalAssetBalance (applyEventCost es cost).1 + cost
      = totalAssetBalance es + (applyEventCost es cost).2 := by
  rw [applyEventCost_eq]
  have h1 := drainList_conservation ["Cash", "Taxable"] es cost
  have h2 := drainList_conservation ["Roth"] (drainList ["Cash", "Taxable"] es cost).1
    (drainList ["Cash", "Taxable"] es cost).2
  have h3 := drainList_conservation ["Pre-Tax"]
    (drainList ["Roth"] (drainList ["Cash", "Taxable"] es cost).1
      (drainList ["Cash", "Taxable"] es cost).2).1
    (drainList ["Roth"] (drainList ["Cash", "Taxable"] es cost).1
      (drainList ["Cash", "Taxable"] es cost).2).2
  linarith

theorem applyEventCost_assetsNonneg (es : List Entity) (cost : ℚ) (h : assetsNonneg es) :
    assetsNonneg (applyEventCost es cost).1 := by
  rw [applyEventCost_eq]
  exact drainList_assetsNonneg _ _ _ (drainList_assetsNonneg _ _ _ (drainList_assetsNonneg _ _ _ h))

theorem applyEventCost_remaining_bounds (es : List Entity) (cost : ℚ)
    (h : assetsNonneg es) (hc : 0 ≤ cost) :
    0 ≤ (applyEventCost es cost).2 ∧ (applyEventCost es cost).2 ≤ cost := by
  rw [applyEventCost_eq]
  have hA1 := drainList_assetsNonneg ["Cash", "Taxable"] es cost h
  have hB1 := drainList_remaining_bounds ["Cash", "Taxable"] es cost h hc
  have hA2 := drainList_assetsNonneg ["Roth"] (drainList ["Cash", "Taxable"] es cost).1
    (drainList ["Cash", "Taxable"] es cost).2 hA1
  have hB2 := drainList_remaining_bounds ["Roth"] (drainList ["Cash", "Taxable"] es cost).1
    (drainList ["Cash", "Taxable"] es cost).2 hA1 hB1.1
  have hB3 := drainList_remaining_bounds ["Pre-Tax"]
    (drainList ["Roth"] (drainList ["Cash", "Taxable"] es cost).1
      (drainList ["Cash", "Taxable"] es cost).2).1
    (drainList ["Roth"] (drainList ["Cash", "Taxable"] es cost).1
      (drainList ["Cash", "Taxable"] es cost).2).2 hA2 hB2.1
  exact ⟨hB3.1, le_trans hB3.2 (le_trans hB2.2 hB1.2)⟩

theorem applyEventCost_exhausts (es : List Entity) (cost : ℚ)
    (h : assetsNonneg es) (hc : 0 ≤ cost) (hpos : 0 < (applyEventCost es cost).2) :
    ∀ tier ∈ tierOrder, allMatchedDrained tier (applyEventCost es cost).1 := by
  rw [applyEventCost_eq] at hpos ⊢
  have hA1 := drainList_assetsNonneg ["Cash", "Taxable"] es cost h
  have hB1 := drainList_remaining_bounds ["Cash", "Taxable"] es cost h hc
  have hA2 := drainList_assetsNonneg ["Roth"] (drainList ["Cash", "Taxable"] es cost).1
    (drainList ["Cash", "Taxable"] es cost).2 hA1
  have hB2 := drainList_remaining_bounds ["Roth"] (drainList ["Cash", "Taxable"] es cost).1
    (drainList ["Cash", "Taxable"] es cost).2 hA1 hB1.1
  have h2pos : 0 < (drainList ["Roth"] (drainList ["Cash", "Taxable"] es cost).1
      (drainList ["Cash", "Taxable"] es cost).2).2 := by
    have hB3 := drainList_remaining_bounds ["Pre-Tax"]
      (drainList ["Roth"] (drainList ["Cash", "Taxable"] es cost).1
        (drainList ["Cash", "Taxable"] es cost).2).1
      (drainList ["Roth"] (drainList ["Cash", "Taxable"] es cost).1
        (drainList ["Cash", "Taxable"] es cost).2).2 hA2 hB2.1
    linarith [hB3.2]
  have h1pos : 0 < (drainList ["Cash", "Taxable"] es cost).2 := by
    linarith [hB2.2]
  have hd1 : allMatchedDrained ["Cash", "Taxable"]
      (drainList ["Cash", "Taxable"] es cost).1 :=
    drainList_exhausts ["Cash", "Taxable"] es cost h h1pos
  have hd2 : allMatchedDrained ["Roth"]
      (drainList ["Roth"] (drainList ["Cash", "Taxable"] es cost).1
        (drainList ["Cash", "Taxable"] es cost).2).1 :=
    drainList_exhausts ["Roth"] (drainList ["Cash", "Taxable"] es cost).1
      (drainList ["Cash", "Taxable"] es cost).2 hA1 h2pos
  have hd3 : allMatchedDrained ["Pre-Tax"]
      (drainList ["Pre-Tax"]
        (drainList ["Roth"] (drainList ["Cash", "Taxable"] es cost).1
          (drainList ["Cash", "Taxable"] es cost).2).1
        (drainList ["Roth"] (drainList ["Cash", "Taxable"] es cost).1
          (drainList ["Cash", "Taxable"] es cost).2).2).1 :=
    drainList_exhausts ["Pre-Tax"] _ _ hA2 hpos
  intro tier htier
  simp only [tierOrder, List.mem_cons, List.not_mem_nil, or_false] at htier
  rcases htier with rfl | rfl | rfl
  · exact drainList_preserves_drained _ _ _ _
      (drainList_preserves_drained _ _ _ _ hd1)
  · exact drainList_preserves_drained _ _ _ _ hd2
  · exact hd3

theorem applyEventCost_tier1_covers (es : List Entity) (cost : ℚ)
    (h : assetsNonneg es) (hc : 0 ≤ cost)
    (hcover : cost ≤ tierSum ["Cash", "Taxable"] es) :
    applyEventCost es cost = ((drainList ["Cash", "Taxable"] es cost).1, 0) := by
  have h1 : (drainList ["Cash", "Taxable"] es cost).2 = 0 := by
    rw [drainList_remaining_eq ["Cash", "Taxable"] es cost h hc]
    exact max_eq_left (by linarith)
  rw [applyEventCost_eq, h1, drainList_of_nonpos ["Roth"] _ 0 (le_refl 0)]
  dsimp only
  exact drainList_of_nonpos ["Pre-Tax"] _ 0 (le_refl 0)

/-- C6: when a life event fires, its cost is inflated by `(1+inflation)^year`
and drained through the fixed tier order (category "Cash" or Taxable first,
then Roth, then Pre-Tax); liabilities are never touched, the total amount
withdrawn equals the drop of the remaining cost, the remaining cost stays in
`[0, cost]`, an unmet remainder means every tier-eligible asset was drained
to 0, and a cost fully coverable by the first tier never touches the later
tiers. -/
theorem C6_event_allocator :
    (∀ (ev : LifeEvent) (inflation_rate : ℚ) (year : ℕ) (age : ℤ) (es : List Entity),
        applyLifeEvents [ev] inflation_rate year age es
          = if ev.age = age then
              (applyEventCost es (ev.cost * (1 + inflation_rate) ^ year)).1
            else es)
    ∧ (∀ (es : List Entity) (cost : ℚ),
        entityLiabs (applyEventCost es cost).1 = entityLiabs es)
    ∧ (∀ (es : List Entity) (cost : ℚ),
        totalAssetBalance (applyEventCost es cost).1 + cost
          = totalAssetBalance es + (applyEventCost es cost).2)
    ∧ (∀ (es : List Entity) (cost : ℚ), assetsNonneg es → 0 ≤ cost →
        0 ≤ (applyEventCost es cost).2 ∧ (applyEventCost es cost).2 ≤ cost)
    ∧ (∀ (es : List Entity) (cost : ℚ), assetsNonneg es → 0 ≤ cost →
        0 < (applyEventCost es cost).2 →
        ∀ tier ∈ tierOrder, allMatchedDrained tier (applyEventCost es cost).1)
    ∧ (∀ (es : List Entity) (cost : ℚ), assetsNonneg es → 0 ≤ cost →
        cost ≤ tierSum ["Cash", "Taxable"] es →
        applyEventCost es cost = ((drainList ["Cash", "Taxable"] es cost).1, 0)) :=
  ⟨fun _ _ _ _ _ => rfl, applyEventCost_liabs, applyEventCost_conservation,
   applyEventCost_remaining_bounds, applyEventCost_exhausts, applyEventCost_tier1_covers⟩

/-- C6 witness: a 4-unit cost drawn from a single 10-balance taxable cash
asset stays within bounds and is covered entirely by the first tier. -/
theorem C6_event_allocator_witness :
    (0 ≤ (applyEventCost [.asset wAsset] 4).2 ∧ (applyEventCost [.asset wAsset] 4).2 ≤ 4)
    ∧ applyEventCost [.asset wAsset] 4
        = ((drainList ["Cash", "Taxable"] [.asset wAsset] 4).1, 0) :=
  ⟨C6_event_allocator.2.2.2.1 [.asset wAsset] 4
      (assetsNonneg_cons_asset.mpr ⟨by norm_num [wAsset], assetsNonneg_nil⟩) (by norm_num),
   C6_event_allocator.2.2.2.2.2 [.asset wAsset] 4
      (assetsNonneg_cons_asset.mpr ⟨by norm_num [wAsset], assetsNonneg_nil⟩) (by norm_num)
      (by
        rw [tierSum_cons_asset, if_pos (show tierMatch ["Cash", "Taxable"] wAsset = true from rfl)]
        norm_num [tierSum, wAsset])⟩

/-! ### C5: progressive tax -/

theorem sliceSum_of_le (t : ℚ) :
    ∀ (bs : List (ℚ × ℚ)) (prev : ℚ), t ≤ prev →
      List.Chain (· ≤ ·) prev (bs.map Prod.snd) → sliceSum t bs prev = 0 := by
  intro bs
  induction bs with
  | nil =>
      intro prev ht _
      simp only [sliceSum]
      rw [max_eq_right ht]
      ring
  | cons rl rest ih =>
      obtain ⟨r, lim⟩ := rl
      intro prev ht hchain
      rw [List.map_cons, List.chain_cons] at hchain
      simp only [sliceSum]
      rw [min_eq_left (le_trans ht hchain.1), min_eq_left ht,
        ih lim (le_trans ht hchain.1) hchain.2]
      ring

theorem bracketWalk_eq_sliceSum (t : ℚ) :
    ∀ (bs : List (ℚ × ℚ)) (prev acc : ℚ), prev ≤ t →
      List.Chain (· ≤ ·) prev (bs.map Prod.snd) →
      bracketWalk t bs prev acc = acc + sliceSum t bs prev := by
  intro bs
  induction bs with
  | nil =>
      intro prev acc hp _
      simp only [bracketWalk, sliceSum]
      rw [max_eq_left hp]
      ring
  | cons rl rest ih =>
      obtain ⟨r, lim⟩ := rl
      intro prev acc hp hchain
      rw [List.map_cons, List.chain_cons] at hchain
      simp only [bracketWalk, sliceSum]
      split
      case isTrue hlim =>
          rw [ih lim _ (le_of_lt hlim) hchain.2,
            min_eq_right (le_of_lt hlim), min_eq_right hp]
          ring
      case isFalse hlim =>
          rw [min_eq_left (not_lt.mp hlim), min_eq_right hp,
            sliceSum_of_le t rest lim (not_lt.mp hlim) hchain.2]
          ring

/-- C5: the tax function returns 0 on non-positive income (for every filing
status), returns 0 at the Single standard deduction 14600, returns 4016 at
50000 Single, and on positive income equals the specification's closed-form
slice sum over the filing status's bracket table after the standard
deduction is subtracted and floored at 0. -/
theorem C5_progressive_tax :
    (∀ (filing_status : String) (income : ℚ), income ≤ 0 →
        calculate_progressive_tax income filing_status = 0)
    ∧ (∀ s : String, calculate_progressive_tax 0 s = 0)
    ∧ calculate_progressive_tax 14600 "Single" = 0
    ∧ calculate_progressive_tax 50000 "Single" = 4016
    ∧ (∀ (income : ℚ) (s : String), 0 < income →
        calculate_progressive_tax income s
          = sliceSum (max 0 (income - (if s = "Single" then 14600 else 29200)))
              (if s = "Single" then singleBrackets else jointBrackets) 0) := by
  have hgen : ∀ (income : ℚ) (s : String), 0 < income →
      calculate_progressive_tax income s
        = sliceSum (max 0 (income - (if s = "Single" then 14600 else 29200)))
            (if s = "Single" then singleBrackets else jointBrackets) 0 := by
    intro inc s hpos
    unfold calculate_progressive_tax
    rw [if_neg (not_le.mpr hpos)]
    by_cases hs : s = "Single"
    · subst hs
      simp only [eq_self_iff_true, if_true]
      rw [bracketWalk_eq_sliceSum _ singleBrackets 0 0 (le_max_left 0 _)
        (by norm_num [singleBrackets, List.chain_cons]), zero_add]
    · simp only [if_neg hs]
      rw [bracketWalk_eq_sliceSum _ jointBrackets 0 0 (le_max_left 0 _)
        (by norm_num [jointBrackets, List.chain_cons]), zero_add]
  refine ⟨fun s inc h => by unfold calculate_progressive_tax; rw [if_pos h],
    fun s => by unfold calculate_progressive_tax; rw [if_pos (le_refl 0)], ?_, ?_, hgen⟩
  · unfold calculate_progressive_tax
    rw [if_neg (by norm_num)]
    have hm : max (0 : ℚ) (14600 - 14600) = 0 := by norm_num
    simp only [eq_self_iff_true, if_true]
    rw [hm]
    norm_num [singleBrackets, bracketWalk]
  · unfold calculate_progressive_tax
    rw [if_neg (by norm_num)]
    have hm : max (0 : ℚ) (50000 - 14600) = 35400 := by
      rw [max_eq_right (by norm_num)]
      norm_num
    simp only [eq_self_iff_true, if_true]
    rw [hm]
    norm_num [singleBrackets, bracketWalk]

/-- C5 witness: the guard clause at a negative income and the slice-sum
refinement at the spec §8 scenario income. -/
theorem C5_progressive_tax_witness :
    calculate_progressive_tax (-3) "Married (Joint)" = 0
    ∧ calculate_progressive_tax 50000 "Single"
        = sliceSum (max 0 (50000 - (if "Single" = "Single" then (14600 : ℚ) else 29200)))
            (if "Single" = "Single" then singleBrackets else jointBrackets) 0 :=
  ⟨C5_progressive_tax.1 "Married (Joint)" (-3) (by norm_num),
   C5_progressive_tax.2.2.2.2 50000 "Single" (by norm_num)⟩

/-! ### C7: income attribution -/

theorem lookupLast_eq (key : String) :
    ∀ (l : List (String × ℚ)), (l.map Prod.fst).Nodup →
      ∀ v : ℚ, (key, v) ∈ l → lookupLast l key = v := by
  intro l
  induction l with
  | nil => intro _ v hv; exact absurd hv (List.not_mem_nil _)
  | cons q rest ih =>
      intro hnd v hv
      rw [List.map_cons, List.nodup_cons] at hnd
      simp only [lookupLast]
      split
      case isTrue heq =>
          rcases List.mem_cons.mp hv with rfl | hmem
          · rfl
          · exfalso
            apply hnd.1
            rw [heq]
            exact List.mem_map_of_mem Prod.fst hmem
      case isFalse heq =>
          rcases List.mem_cons.mp hv with rfl | hmem
          · exact absurd rfl heq
          · exact ih hnd.2 v hmem

theorem rowLookup_eq (l : List (String × ℚ)) (hnd : (l.map Prod.fst).Nodup) (key : String)
    (v : ℚ) (hv : (key, v) ∈ l) : rowLookup l key = v := by
  unfold rowLookup
  apply lookupLast_eq key l.reverse ?_ v (List.mem_reverse.mpr hv)
  rw [List.map_reverse]
  exact List.nodup_reverse.mpr hnd

theorem rowValues_keys (inflation_rate : ℚ) (year : ℕ) (es : List Entity) :
    (rowValues inflation_rate year es).map Prod.fst = es.map Entity.name := by
  unfold rowValues
  rw [List.map_map]
  rfl

theorem specAttributedIncome_eq (p : SimParams) (inflation_rate : ℚ) (year : ℕ)
    (current_age : ℤ) (base net : ℚ) (e : Entity) :
    specAttributedIncome p inflation_rate year current_age base net e
      = net * (entityBaseContribution inflation_rate year current_age p.retirement_age e
          / base) := by
  cases e with
  | liability l => simp [specAttributedIncome, entityBaseContribution]
  | asset a =>
      simp only [specAttributedIncome, entityBaseContribution]
      by_cases h : swrEligible current_age p.retirement_age a = true
      · rw [if_pos h]
      · rw [if_neg h, show baseContribution inflation_rate year current_age p.retirement_age a
              = 0 from by unfold baseContribution; rw [if_neg h]]
        simp

/-- C7: with unique entity names, a positive withdrawal base makes every
asset's income column the specification's proportional share (eligible
assets get `net * realValue / base`, everything else 0) and the income
columns sum exactly to the net passive income; a non-positive base makes
every income column exactly 0 (the guarded branch, no division). -/
theorem C7_income_attribution :
    ∀ (p : SimParams) (year : ℕ) (current_age : ℤ) (es : List Entity) (net base : ℚ)
      (vals : List (String × ℚ)),
      (es.map Entity.name).Nodup →
      base = swrBase p.inflation_rate year current_age p.retirement_age es →
      vals = rowValues p.inflation_rate year es →
      ((0 < base →
          rowIncomes p current_age base net vals es
            = es.map (fun e => (e.name ++ " Income",
                specAttributedIncome p p.inflation_rate year current_age base net e))
          ∧ ((rowIncomes p current_age base net vals es).map Prod.snd).sum = net)
      ∧ (base ≤ 0 →
          ∀ q ∈ rowIncomes p current_age base net vals es, q.2 = 0)) := by
  intro p year ca es net base vals hnd hbase hvals
  constructor
  · intro hpos
    have hchar : rowIncomes p ca base net vals es
        = es.map (fun e => (e.name ++ " Income",
            specAttributedIncome p p.inflation_rate year ca base net e)) := by
      unfold rowIncomes
      rw [if_pos hpos]
      apply List.map_congr_left
      intro e he
      cases e with
      | liability l => rfl
      | asset a =>
          have hx : rowLookup vals a.name = a.balance / (1 + p.inflation_rate) ^ year := by
            subst hvals
            refine rowLookup_eq _ ?_ a.name _
              (List.mem_map_of_mem (fun e => (e.name, signedRealValue p.inflation_rate year e)) he)
            rw [rowValues_keys]
            exact hnd
          by_cases helig : swrEligible ca p.retirement_age a = true
          · simp only [if_pos helig, specAttributedIncome, hx]
            rw [show baseContribution p.inflation_rate year ca p.retirement_age a
                = a.balance / (1 + p.inflation_rate) ^ year from
              by unfold baseContribution; rw [if_pos helig]]
            rfl
          · simp only [if_neg helig, specAttributedIncome]
            rfl
    refine ⟨hchar, ?_⟩
    rw [hchar, List.map_map]
    have hcomp : (Prod.snd ∘ fun e : Entity => (e.name ++ " Income",
        specAttributedIncome p p.inflation_rate year ca base net e))
        = fun e => specAttributedIncome p p.inflation_rate year ca base net e := rfl
    rw [hcomp]
    have hpt : ∀ e ∈ es, specAttributedIncome p p.inflation_rate year ca base net e
        = net / base * entityBaseContribution p.inflation_rate year ca p.retirement_age e := by
      intro e _
      rw [specAttributedIncome_eq]
      ring
    rw [List.map_congr_left hpt, List.sum_map_mul_left]
    have hb2 : (es.map (entityBaseContribution p.inflation_rate year ca p.retirement_age)).sum
        = base := hbase.symm
    rw [hb2]
    exact div_mul_cancel₀ net (ne_of_gt hpos)
  · intro hle q hq
    unfold rowIncomes at hq
    rw [if_neg (not_lt.mpr hle)] at hq
    rcases List.mem_filterMap.mp hq with ⟨e, _, hsome⟩
    cases e with
    | asset a =>
        obtain rfl : (a.name ++ " Income", (0 : ℚ)) = q := by injection hsome
        rfl
    | liability l => exact absurd hsome (by simp)

/-- C7 witness: on the demo entity set (taxable cash eligible, Pre-Tax not,
one liability) at age 30 the base is positive and the income columns sum to
the supplied net passive income. -/
theorem C7_income_attribution_witness :
    ((rowIncomes pDefault 30
        (swrBase pDefault.inflation_rate 0 30 pDefault.retirement_age demoEntities) 50
        (rowValues pDefault.inflation_rate 0 demoEntities) demoEntities).map Prod.snd).sum
      = 50 := by
  have hb : swrBase pDefault.inflation_rate 0 30 pDefault.retirement_age demoEntities = 10 := by
    show swrBase 0.025 0 30 65 demoEntities = 10
    simp only [swrBase, demoEntities, List.map_cons, List.map_nil, List.sum_cons, List.sum_nil,
      entityBaseContribution, baseContribution,
      show swrEligible 30 65 wAsset = true from rfl,
      show swrEligible 30 65 preTaxAsset = false from rfl]
    norm_num [wAsset]
  exact ((C7_income_attribution pDefault 0 30 demoEntities 50
      (swrBase pDefault.inflation_rate 0 30 pDefault.retirement_age demoEntities)
      (rowValues pDefault.inflation_rate 0 demoEntities)
      (by decide) rfl rfl).1 (by rw [hb]; norm_num)).2

/-! ### C9 and C10: determinism, horizon -/

theorem run_simulation_eq (portfolio : List Entity) (life_events : List LifeEvent)
    (user_age : ℤ) (years_to_project : ℕ) (p : SimParams) (current_year_date : ℤ) :
    run_simulation portfolio life_events user_age years_to_project p current_year_date
      = simLoop p life_events user_age ((85 - user_age) + 1).toNat 0
          current_year_date portfolio := rfl

theorem simLoop_succ (p : SimParams) (events : List LifeEvent) (user_age : ℤ)
    (fuel year : ℕ) (current_year : ℤ) (es : List Entity) :
    simLoop p events user_age (fuel + 1) year current_year es
      = buildRow p year (user_age + year) current_year (yearStep p events user_age year es) ::
          simLoop p events user_age fuel (year + 1) (current_year + 1)
            (yearStep p events user_age year es) := rfl

theorem buildRow_year (p : SimParams) (year : ℕ) (current_age current_year : ℤ)
    (es : List Entity) : (buildRow p year current_age current_year es).year = current_year := rfl

theorem buildRow_age (p : SimParams) (year : ℕ) (current_age current_year : ℤ)
    (es : List Entity) : (buildRow p year current_age current_year es).age = current_age := rfl

theorem stripYear_buildRow (p : SimParams) (year : ℕ) (current_age current_year : ℤ)
    (es : List Entity) :
    stripYear (buildRow p year current_age current_year es)
      = buildRow p year current_age 0 es := rfl

theorem simLoop_length (p : SimParams) (events : List LifeEvent) (user_age : ℤ) :
    ∀ (fuel year : ℕ) (current_year : ℤ) (es : List Entity),
      (simLoop p events user_age fuel year current_year es).length = fuel := by
  intro fuel
  induction fuel with
  | zero => intro year cy es; rfl
  | succ n ih =>
      intro year cy es
      rw [simLoop_succ, List.length_cons, ih]

theorem simLoop_year_map (p : SimParams) (events : List LifeEvent) (user_age : ℤ) :
    ∀ (fuel year : ℕ) (current_year : ℤ) (es : List Entity),
      (simLoop p events user_age fuel year current_year es).map Row.year
        = (List.range fuel).map (fun i : ℕ => current_year + (i : ℤ)) := by
  intro fuel
  induction fuel with
  | zero => intro year cy es; rfl
  | succ n ih =>
      intro year cy es
      rw [simLoop_succ, List.map_cons, ih, List.range_succ_eq_map, List.map_cons,
        List.map_map, buildRow_year]
      congr 1
      · simp
      · apply List.map_congr_left
        intro i _
        simp only [Function.comp_apply]
        push_cast
        ring

theorem simLoop_age_map (p : SimParams) (events : List LifeEvent) (user_age : ℤ) :
    ∀ (fuel year : ℕ) (current_year : ℤ) (es : List Entity),
      (simLoop p events user_age fuel year current_year es).map Row.age
        = (List.range fuel).map (fun i : ℕ => user_age + ((year : ℤ) + (i : ℤ))) := by
  intro fuel
  induction fuel with
  | zero => intro year cy es; rfl
  | succ n ih =>
      intro year cy es
      have hf : ((fun i : ℕ => user_age + ((year : ℤ) + (i : ℤ))) ∘ Nat.succ)
          = (fun i : ℕ => user_age + (((year + 1 : ℕ) : ℤ) + (i : ℤ))) := by
        funext i
        simp only [Function.comp_apply]
        push_cast
        ring
      rw [simLoop_succ, List.map_cons, ih, List.range_succ_eq_map, List.map_cons,
        List.map_map, buildRow_age, hf]
      congr 1

theorem simLoop_stripYear (p : SimParams) (events : List LifeEvent) (user_age : ℤ) :
    ∀ (fuel year : ℕ) (cy1 cy2 : ℤ) (es : List Entity),
      (simLoop p events user_age fuel year cy1 es).map stripYear
        = (simLoop p events user_age fuel year cy2 es).map stripYear := by
  intro fuel
  induction fuel with
  | zero => intro year cy1 cy2 es; rfl
  | succ n ih =>
      intro year cy1 cy2 es
      rw [simLoop_succ, simLoop_succ, List.map_cons, List.map_cons,
        stripYear_buildRow, stripYear_buildRow, ih (year + 1) (cy1 + 1) (cy2 + 1)]

/-- C9 counterexample: with identical configuration and parameters, a run
started when the wall clock reads calendar year 2024 differs from a run
started when it reads 2025 — `run_simulation` consults `date.today()`, so
its output is not a function of its input configuration and parameters
alone (the `Year` column shifts). -/
theorem C9_year_depends_on_clock :
    run_simulation [.asset cashAsset] [] 85 30 pDefault 2024
      ≠ run_simulation [.asset cashAsset] [] 85 30 pDefault 2025 := by
  intro h
  have h2 := congrArg (List.map Row.year) h
  rw [run_simulation_eq, run_simulation_eq, simLoop_year_map, simLoop_year_map] at h2
  rw [show (((85 : ℤ) - 85) + 1).toNat = 1 from rfl] at h2
  simp [List.range_succ] at h2

/-- C9 amended: the engine is deterministic in its inputs and the observed
wall-clock year: two runs with identical configuration and parameters agree
on every output field except the calendar `Year` column (which equals the
observed year plus the row index), so runs observing the same current year
produce identical output sequences, field for field. -/
theorem C9_clock_determinism :
    ∀ (portfolio : List Entity) (events : List LifeEvent) (user_age : ℤ)
      (years_to_project : ℕ) (p : SimParams) (y1 y2 : ℤ),
      (run_simulation portfolio events user_age years_to_project p y1).map stripYear
        = (run_simulation portfolio events user_age years_to_project p y2).map stripYear
      ∧ (run_simulation portfolio events user_age years_to_project p y1).map Row.year
          = (List.range
              (run_simulation portfolio events user_age years_to_project p y1).length).map
              (fun i : ℕ => y1 + (i : ℤ)) := by
  intro portfolio events ua ytp p y1 y2
  constructor
  · rw [run_simulation_eq, run_simulation_eq]
    exact simLoop_stripYear p events ua _ 0 y1 y2 portfolio
  · rw [run_simulation_eq, simLoop_year_map, simLoop_length]

theorem horizon_toNat (user_age : ℕ) : (((85 : ℤ) - user_age) + 1).toNat = 86 - user_age := by
  omega

/-- C10: the display-window argument is ignored (runs with different
requested windows are identical), the output always has one row per age
from the starting age through the fixed terminal age 85 (`86 − startAge`
rows, natural-number truncation), the ages increase one per row, and
startAge 30 yields exactly 56 rows. -/
theorem C10_horizon :
    (∀ (portfolio : List Entity) (events : List LifeEvent) (user_age : ℤ)
        (ytp1 ytp2 : ℕ) (p : SimParams) (y : ℤ),
        run_simulation portfolio events user_age ytp1 p y
          = run_simulation portfolio events user_age ytp2 p y)
    ∧ (∀ (portfolio : List Entity) (events : List LifeEvent) (user_age : ℕ)
        (ytp : ℕ) (p : SimParams) (y : ℤ),
        (run_simulation portfolio events user_age ytp p y).length = 86 - user_age)
    ∧ (∀ (portfolio : List Entity) (events : List LifeEvent) (user_age : ℕ)
        (ytp : ℕ) (p : SimParams) (y : ℤ),
        (run_simulation portfolio events user_age ytp p y).map Row.age
          = (List.range (86 - user_age)).map (fun i : ℕ => (user_age : ℤ) + (i : ℤ)))
    ∧ (∀ (portfolio : List Entity) (events : List LifeEvent) (ytp : ℕ)
        (p : SimParams) (y : ℤ),
        (run_simulation portfolio events 30 ytp p y).length = 56) := by
  refine ⟨fun _ _ _ _ _ _ _ => rfl, ?_, ?_, ?_⟩
  · intro portfolio events ua ytp p y
    rw [run_simulation_eq, simLoop_length, horizon_toNat]
  · intro portfolio events ua ytp p y
    rw [run_simulation_eq, simLoop_age_map, horizon_toNat]
    apply List.map_congr_left
    intro i _
    norm_num
  · intro portfolio events ytp p y
    rw [run_simulation_eq, simLoop_length]
    rfl

end WealthApp
